import Mathlib

/-!
# Verification of the `baseclass` library

Shallow embedding of `src/baseclass/_baseclass.py` (classes `TrackedInstances`,
`CallPostInit`, `InstancingArgsTracker`) and proofs about the claims of the
specification.

Python values are modelled by `PyVal` (with `PyVal.empty` playing the role of
the sentinel `inspect.Parameter.empty`), Python dictionaries by insertion
ordered association lists over string keys (`Dict`), and a class initializer
signature, as produced by `inspect.signature`, by a list of `Param`.
-/

/-- A Python value.  `empty` models the sentinel `inspect.Parameter.empty`
used by `inspect` for "no default"; `str` is an ordinary (opaque) value. -/
inductive PyVal where
  | empty : PyVal
  | str : String → PyVal
deriving DecidableEq, Repr

/-- A Python `dict` with string keys: an insertion-ordered association list.
Python dictionaries never hold a key twice; all operations below agree with
`dict` semantics on such lists. -/
abbrev Dict := List (String × PyVal)

/-- `d[k] = v`: updating an existing key keeps its position, a new key is
appended at the end (Python dict insertion order semantics). -/
def dset : Dict → String → PyVal → Dict
  | [], k, v => [(k, v)]
  | (k', v') :: rest, k, v =>
      if k' = k then (k', v) :: rest else (k', v') :: dset rest k v

/-- `d.get(k)`: first binding of the key, if any. -/
def dlookup (k : String) : Dict → Option PyVal
  | [] => none
  | (k', v) :: rest => if k' = k then some v else dlookup k rest

/-- `d.pop(k, None)`: remove the key's binding (keys are unique in a Python
dict, so removing every occurrence is the same operation). -/
def dpop (k : String) : Dict → Dict
  | [] => []
  | (k', v) :: rest => if k' = k then dpop k rest else (k', v) :: dpop k rest

/-- Keys of a dictionary, in order. -/
def dkeys (d : Dict) : List String := d.map Prod.fst

/-!
## Initializer signatures (`inspect.signature`)

`inspect.signature(cls)` yields the parameter list of the class's original
`__init__` (the `functools.wraps` decoration in `CallPostInit` makes
`inspect.signature` follow `__wrapped__`), with the `self` receiver stripped.
A parameter has a name, a kind and a default (`PyVal.empty` when the source
shows no default, exactly as `inspect.Parameter.empty`).

The initializers appearing in this code base declare only plain
positional-or-keyword parameters and the two variadic collectors, so those
are the kinds modelled.
-/

/-- Kind of a declared initializer parameter (`inspect.Parameter.kind`). -/
inductive PKind where
  | posOrKw : PKind
  | varPos : PKind
  | varKw : PKind
deriving DecidableEq, Repr

/-- One declared parameter of an initializer (`inspect.Parameter`). -/
structure Param where
  name : String
  kind : PKind
  default : PyVal
deriving DecidableEq, Repr

/-- One class's initializer signature: its parameters in declaration order. -/
structure Sig where
  params : List Param
deriving DecidableEq, Repr

/-- Whether a parameter is one of the two variadic collectors. -/
def isVariadic (p : Param) : Bool :=
  match p.kind with
  | PKind.varPos => true
  | PKind.varKw => true
  | PKind.posOrKw => false

/-- The `arg` dict of `__post_init__`: parameters whose default is
`inspect.Parameter.empty` and whose kind is not variadic, in order. -/
def requiredParams (s : Sig) : List Param :=
  s.params.filter (fun p => p.default == PyVal.empty && !isVariadic p)

/-- The `kw` dict of `__post_init__`: parameters carrying a default and whose
kind is not variadic, in order. -/
def defaultedParams (s : Sig) : List Param :=
  s.params.filter (fun p => p.default != PyVal.empty && !isVariadic p)

/-- `inspect.Parameter.VAR_POSITIONAL in kinds or VAR_KEYWORD in kinds`. -/
def hasVariadic (s : Sig) : Bool :=
  s.params.any isVariadic

/-- The loop `for k, v in arg.items(): data[k] = args.pop(0) if len(args) > 0
else v.default` of `__post_init__`. -/
def bindRequired : Dict → List PyVal → List Param → Dict × List PyVal
  | data, args, [] => (data, args)
  | data, args, p :: ps =>
    match args with
    | [] => bindRequired (dset data p.name p.default) [] ps
    | a :: rest => bindRequired (dset data p.name a) rest ps

/-- The loop `for i in range(len(args)): idx = len(arg) + i; ...` of
`__post_init__`: assign leftover positional values to the declared parameter
slots by index, stopping at a variadic slot.  The loop runs once per element
initially in `args` and pops one element each iteration, so it is the same as
recursing on `args`; indexing `params_list[idx]` out of range raises
`IndexError`, modelled by `none`. -/
def leftoverLoop (plist : List Param) : Nat → Dict → List PyVal →
    Option (Dict × List PyVal)
  | _, data, [] => some (data, [])
  | idx, data, a :: rest =>
    match plist.get? idx with
    | none => none
    | some p =>
      if isVariadic p then some (data, a :: rest)
      else leftoverLoop plist (idx + 1) (dset data p.name a) rest

/-- One iteration of the `for base in inspect.getmro(...)` loop of
`__post_init__`: seed the defaulted parameters' defaults (`data.update(**kw)`),
bind the required parameters, then run the leftover-assignment loop. -/
def processBase (s : Sig) (data : Dict) (args : List PyVal) :
    Option (Dict × List PyVal) :=
  let data1 := (defaultedParams s).foldl (fun d p => dset d p.name p.default) data
  let br := bindRequired data1 args (requiredParams s)
  leftoverLoop s.params (requiredParams s).length br.1 br.2

/-- The full `for base in inspect.getmro(...)` loop: process each ancestor's
signature in MRO order, stopping after the first ancestor whose signature
declares neither variadic collector. -/
def walkChain : Dict → List PyVal → List Sig → Option (Dict × List PyVal)
  | data, args, [] => some (data, args)
  | data, args, s :: rest =>
    match processBase s data args with
    | none => none
    | some da =>
      if hasVariadic s then walkChain da.1 da.2 rest else some da

/-- `data.update(**kwargs)`: overlay the keyword arguments passed at the call. -/
def overlayKwargs (data : Dict) (kwargs : Dict) : Dict :=
  kwargs.foldl (fun d kv => dset d kv.1 kv.2) data

/-- The four names popped unconditionally at the end of `__post_init__`. -/
def bookkeepingNames : List String := ["cls", "self", "args", "kwargs"]

/-- `for key in ['cls', 'self', 'args', 'kwargs']: data.pop(key, None)`. -/
def cleanupData (data : Dict) : Dict :=
  bookkeepingNames.foldl (fun d k => dpop k d) data

/-- `InstancingArgsTracker.__post_init__`: from the MRO's signatures and the
original call's positional and keyword arguments, compute the `_metadata`
dict.  `none` models the uncaught `IndexError` of the leftover loop. -/
def postInitMetadata (chain : List Sig) (args : List PyVal) (kwargs : Dict) :
    Option Dict :=
  match walkChain [] args chain with
  | none => none
  | some da => some (cleanupData (overlayKwargs da.1 kwargs))

/-- The `rtn` list of `get_mro_parameters`: every parameter of every
signature of the chain, concatenated in MRO order. -/
def allParams (chain : List Sig) : List Param :=
  chain.foldl (fun acc s => acc ++ s.params) []

/-- `InstancingArgsTracker.get_mro_parameters`: every parameter of every
signature in the full MRO, non-variadic ones only, as a set (duplicate
`inspect.Parameter` values collapse; `List.dedup` keeps first occurrences). -/
def get_mro_parameters (chain : List Sig) : List Param :=
  ((allParams chain).filter (fun p => !isVariadic p)).dedup

/-- All parameter names declared by any signature of the chain. -/
def declaredNames (chain : List Sig) : List String :=
  (allParams chain).map Param.name

/-!
## Python call binding for one initializer

Construction calls the most-derived class's wrapper, which forwards `*args,
**kwargs` to the original `__init__`; Python then binds these arguments
against the declared signature and raises `TypeError` when they do not fit.
This models that binding for the parameter kinds occurring here (plain
positional-or-keyword parameters plus the variadic collectors).
-/

/-- Non-variadic (bindable-by-position) parameters of a signature. -/
def nonVariadicParams (s : Sig) : List Param :=
  s.params.filter (fun p => !isVariadic p)

/-- Total count of non-variadic parameter slots over a whole chain. -/
def totalNonVariadicSlots (chain : List Sig) : Nat :=
  (chain.map (fun s => (nonVariadicParams s).length)).sum

/-- Python's check rejecting a call that passes more positional arguments
than the signature's non-variadic slots when no `*`-collector is declared. -/
def tooManyPositional (s : Sig) (args : List PyVal) : Bool :=
  decide (args.length > (nonVariadicParams s).length) &&
    !(s.params.any (fun p => p.kind == PKind.varPos))

/-- Python's binding of one call `cls(*args, **kwargs)` against the raw
`__init__` signature: excess positionals with no `*`-collector, duplicate
bindings, unknown keywords with no `**`-collector, and missing required
parameters each raise `TypeError`. -/
def bindCall (s : Sig) (args : List PyVal) (kwargs : Dict) :
    Except String Dict :=
  let pos := nonVariadicParams s
  if tooManyPositional s args
  then Except.error "TypeError: too many positional arguments"
  else
    let bound : Dict := (pos.zip args).map (fun pa => (pa.1.name, pa.2))
    let posNames := pos.map Param.name
    let step : Except String Dict → String × PyVal → Except String Dict :=
      fun acc kv =>
        match acc with
        | Except.error e => Except.error e
        | Except.ok env =>
          if (env.map Prod.fst).contains kv.1 then
            Except.error "TypeError: multiple values for argument"
          else if posNames.contains kv.1 then
            Except.ok (env ++ [kv])
          else if s.params.any (fun p => p.kind == PKind.varKw) then
            Except.ok env
          else Except.error "TypeError: unexpected keyword argument"
    match kwargs.foldl step (Except.ok bound) with
    | Except.error e => Except.error e
    | Except.ok env =>
      if pos.all (fun p =>
          !(p.default == PyVal.empty) || (env.map Prod.fst).contains p.name)
      then Except.ok env
      else Except.error "TypeError: missing required argument"

/-!
## Concrete hierarchies

Signatures of the classes of the repository's test module and of the library
base classes.  `inspect.signature` on `InstancingArgsTracker` follows the
`functools.wraps` chain to `object.__init__` and yields `(*args, **kwargs)`;
on `CallPostInit`, `ABC` and `object` (no user-defined `__init__`) it yields
`()`.
-/

/-- A required positional-or-keyword parameter. -/
def reqP (n : String) : Param := ⟨n, PKind.posOrKw, PyVal.empty⟩

/-- A defaulted positional-or-keyword parameter. -/
def defP (n : String) (d : String) : Param := ⟨n, PKind.posOrKw, PyVal.str d⟩

/-- The `*args` collector. -/
def varArgsP : Param := ⟨"args", PKind.varPos, PyVal.empty⟩

/-- The `**kwargs` collector. -/
def varKwargsP : Param := ⟨"kwargs", PKind.varKw, PyVal.empty⟩

/-- `(*args, **kwargs)`: signature of `InstancingArgsTracker` (wrapped). -/
def vsig : Sig := ⟨[varArgsP, varKwargsP]⟩

/-- `()`: signature of `CallPostInit`, `ABC` and `object`. -/
def emptySig : Sig := ⟨[]⟩

/-- Signatures of the MRO members below the user classes:
`InstancingArgsTracker`, `CallPostInit`, `ABC`, `object`. -/
def mroTail : List Sig := [vsig, emptySig, emptySig, emptySig]

/-- `Parent.__init__(self, p1, p2, p3="vp3")` from the tests. -/
def sigParent : Sig := ⟨[reqP "p1", reqP "p2", defP "p3" "vp3"]⟩

/-- `Child.__init__(self, c1, c2="vc2", c3="vc3", *args, **kwargs)`. -/
def sigChild : Sig :=
  ⟨[reqP "c1", defP "c2" "vc2", defP "c3" "vc3", varArgsP, varKwargsP]⟩

/-- `Grandchild.__init__(self, gc1, gc2="vgc2", *args, **kwargs)`. -/
def sigGrandchild : Sig := ⟨[reqP "gc1", defP "gc2" "vgc2", varArgsP, varKwargsP]⟩

/-- MRO signatures of `Parent`. -/
def chainParent : List Sig := sigParent :: mroTail

/-- MRO signatures of `Child`. -/
def chainChild : List Sig := sigChild :: sigParent :: mroTail

/-- MRO signatures of `Grandchild`. -/
def chainGrandchild : List Sig := sigGrandchild :: sigChild :: sigParent :: mroTail

/-!
## The post-construction hook protocol (`CallPostInit`)

`CallPostInit.__init_subclass__` replaces every subclass's `__init__` with

    def new_init(self, *args, init=cls.__init__, **kwargs):
        init(self, *args, **kwargs)
        if type(self) == cls:
            self.__post_init__(*args, **kwargs)

Constructing an instance therefore runs, from the most-derived class down,
each level's wrapper: the wrapper binds its keyword-only `init` parameter
(from a caller keyword named `"init"`, if one is passed, else the class's
original initializer), runs that initializer — whose body forwards some
arguments to `super().__init__`, i.e. the next level's wrapper — and then
invokes the hook exactly when the runtime type equals the wrapper's class.
The execution is modelled as the list of events it produces.
-/

/-- One class of a hierarchy taking part in construction: its identity,
whether `__init_subclass__` wrapped its initializer (true for every strict
subclass of `CallPostInit`), and what its original initializer body forwards
to `super().__init__`. -/
structure Level where
  cls : Nat
  wrapped : Bool
  fwd : List PyVal → Dict → List PyVal × Dict

/-- Observable events of a construction. -/
inductive Event where
  | initBody (c : Nat)
  | ovrCall (c : Nat)
  | hook (c : Nat) (args : List PyVal) (kwargs : Dict)
deriving DecidableEq, Repr

/-- Run the initializer chain of runtime type `t` through the wrappers, most
derived level first, producing the event trace.  At a wrapped level, a caller
keyword named `"init"` binds the wrapper's keyword-only `init` parameter: the
supplied callable runs in place of the original initializer chain
(`Event.ovrCall`) and the keyword is not part of the `**kwargs` collector.
The hook call and its exact-type guard run after the initializer returns. -/
def runInitChain (t : Nat) : List Level → List PyVal → Dict → List Event
  | [], _, _ => []
  | l :: rest, args, kwargs =>
    if l.wrapped then
      let kwargsC := dpop "init" kwargs
      let inner :=
        match dlookup "init" kwargs with
        | some _ => [Event.ovrCall l.cls]
        | none =>
          let fk := l.fwd args kwargsC
          runInitChain t rest fk.1 fk.2 ++ [Event.initBody l.cls]
      inner ++ (if l.cls = t then [Event.hook l.cls args kwargsC] else [])
    else
      let fk := l.fwd args kwargs
      runInitChain t rest fk.1 fk.2 ++ [Event.initBody l.cls]

/-- The hook invocations of a trace. -/
def hookEvents (evts : List Event) : List Event :=
  evts.filter (fun e =>
    match e with
    | Event.hook _ _ _ => true
    | _ => false)

/-!
## The instance registry (`TrackedInstances`)

Per-class weak sets of live instances.  A class owns a registry exactly when
at least one instance of that exact class was constructed (`__new__` lazily
creates `cls.instances` in the class's own `__dict__`).  Classes and
instances are identified by numbers; a registry's contents are the live
instances of its class (dead weak references have already vanished).
-/

/-- Per-class registries: `some l` when the class's own `__dict__` has an
`instances` weak set holding the live instances `l`. -/
abbrev Registry := List (Nat × List Nat)

/-- The class's own registry, if its `__dict__` has one. -/
def lookupReg (c : Nat) : Registry → Option (List Nat)
  | [] => none
  | (c', l) :: rest => if c' = c then some l else lookupReg c rest

/-- Replace class `c`'s registry contents. -/
def setReg (c : Nat) (l : List Nat) : Registry → Registry
  | [] => [(c, l)]
  | (c', l') :: rest =>
      if c' = c then (c', l) :: rest else (c', l') :: setReg c l rest

/-- `TrackedInstances.__new__`: lazily create the class's own registry, then
add the new instance to it. -/
def trackedNew (c : Nat) (i : Nat) (st : Registry) : Registry :=
  match lookupReg c st with
  | none => setReg c [i] st
  | some l => setReg c (l ++ [i]) st

/-- Live instances of class `c` visible in its own registry (empty when the
class has none). -/
def liveInstances (c : Nat) (st : Registry) : List Nat :=
  (lookupReg c st).getD []

/-- `TrackedInstances.get_instances`: raise `AttributeError` when the class's
own `__dict__` has no `instances` attribute, else return the instances
selected by the predicate. -/
def get_instances (c : Nat) (sel : Nat → Bool) (st : Registry) :
    Except String (List Nat) :=
  match lookupReg c st with
  | none => Except.error "AttributeError: class has no attribute instances"
  | some l => Except.ok (l.filter sel)

mutual
/-- A class hierarchy below a root: a class and its direct subclasses'
subtrees (`cls.__subclasses__()` order). -/
inductive ClsTree where
  | node : Nat → ClsForest → ClsTree

/-- A list of subclass subtrees. -/
inductive ClsForest where
  | nil : ClsForest
  | cons : ClsTree → ClsForest → ClsForest
end

/-- Root class of a subtree. -/
def ClsTree.root : ClsTree → Nat
  | ClsTree.node c _ => c

/-- `cls.instances` as an attribute lookup: the class's own registry, or the
one inherited from the nearest ancestor (`inh`) when the class has none. -/
def visibleReg (st : Registry) (inh : Option (List Nat)) (c : Nat) :
    Option (List Nat) :=
  match lookupReg c st with
  | some l => some l
  | none => inh

mutual
/-- `TrackedInstances.inst_and_subcls_inst`: `list(cls.instances)` (an
`AttributeError` when no registry is visible), plus, recursively, the result
for every direct subclass not in `exclude`.  `inh` is the registry the class
would inherit from its ancestors, per Python attribute lookup. -/
def inst_and_subcls_inst (st : Registry) (exclude : List Nat)
    (inh : Option (List Nat)) : ClsTree → Except String (List Nat)
  | ClsTree.node c children =>
    match visibleReg st inh c with
    | none => Except.error "AttributeError: class has no attribute instances"
    | some own =>
      match instForest st exclude (visibleReg st inh c) children with
      | Except.error e => Except.error e
      | Except.ok rest => Except.ok (own ++ rest)

/-- The loop `for subcls in [v for v in cls.__subclasses__() if v not in
exclude]: inst += subcls.inst_and_subcls_inst(exclude=exclude)`. -/
def instForest (st : Registry) (exclude : List Nat)
    (inh : Option (List Nat)) : ClsForest → Except String (List Nat)
  | ClsForest.nil => Except.ok []
  | ClsForest.cons t ts =>
    if exclude.contains t.root then instForest st exclude inh ts
    else
      match inst_and_subcls_inst st exclude inh t with
      | Except.error e => Except.error e
      | Except.ok l =>
        match instForest st exclude inh ts with
        | Except.error e => Except.error e
        | Except.ok l' => Except.ok (l ++ l')
end

mutual
/-- Classes of the subtree reachable without passing through an excluded
class (the root itself is never tested against the exclusion list, exactly
as in the source). -/
def reachableCls (exclude : List Nat) : ClsTree → List Nat
  | ClsTree.node c children => c :: reachableClsForest exclude children

/-- `reachableCls` over a list of subtrees, skipping excluded roots. -/
def reachableClsForest (exclude : List Nat) : ClsForest → List Nat
  | ClsForest.nil => []
  | ClsForest.cons t ts =>
    (if exclude.contains t.root then [] else reachableCls exclude t) ++
      reachableClsForest exclude ts
end

/-- Modelled from the spec: the set `collect_with_descendants` is specified
to return — the union of the root's own live instances and those of every
descendant that is neither excluded nor below an excluded class. -/
def specUnionLive (st : Registry) (exclude : List Nat) (t : ClsTree) :
    List Nat :=
  (reachableCls exclude t).flatMap (fun c => liveInstances c st)

/-!
## The metadata view (`InstancingArgsTracker.metadata`)

`metadata` is a `property` with a getter and no setter: it returns
`self._metadata`, the plain `dict` built by `__post_init__`.  Assigning to
the attribute (`obj.metadata = ...`) hits the setter-less property and
raises `AttributeError`; item assignment on the returned view
(`obj.metadata[k] = v`) mutates the underlying dict and succeeds.
-/

/-- The property getter: returns the stored `_metadata` dict itself. -/
def metadataView (m : Dict) : Dict := m

/-- `obj.metadata = v`: the property declares no setter, so the attribute
assignment raises `AttributeError` and the stored metadata is untouched. -/
def setMetadataAttr (_m : Dict) (_v : Dict) : Except String Dict :=
  Except.error "AttributeError: metadata property has no setter"

/-- `obj.metadata[k] = v`: item assignment on the returned view mutates the
underlying `_metadata` dict in place; no error is raised. -/
def setMetadataItem (m : Dict) (k : String) (v : PyVal) : Dict :=
  dset m k v

/-!
## Concrete scenarios used to settle individual claims
-/

/-- `Child.__init__(self, c1, c2="vc2", *args, **kwargs)`: derived class of a
two-level hierarchy that redeclares `c2` with a default at both levels. -/
def sigChildR : Sig := ⟨[reqP "c1", defP "c2" "vc2", varArgsP, varKwargsP]⟩

/-- `Parent.__init__(self, p1, c2="pc2")`: base class redeclaring `c2`. -/
def sigParentR : Sig := ⟨[reqP "p1", defP "c2" "pc2"]⟩

/-- MRO signatures of the redeclaring hierarchy. -/
def chainRedecl : List Sig := sigChildR :: sigParentR :: mroTail

/-- MRO signatures of a class `__init__(self, p1, **kwargs)`. -/
def chainVarKw : List Sig := Sig.mk [reqP "p1", varKwargsP] :: mroTail

/-- MRO signatures of a class `__init__(self, p1, args)` whose second
parameter is an ordinary one that happens to be named `args`. -/
def chainArgsName : List Sig := Sig.mk [reqP "p1", reqP "args"] :: mroTail

/-- MRO signatures of a class `__init__(self, p1, *rest, **opts)` whose
variadic collectors carry names other than `args`/`kwargs`. -/
def chainOtherCollector : List Sig :=
  Sig.mk [reqP "p1", Param.mk "rest" PKind.varPos PyVal.empty,
          Param.mk "opts" PKind.varKw PyVal.empty] :: mroTail

/-- A three-level wrapped hierarchy Base(1) <- Mid(2) <- Leaf(3), every
initializer body forwarding all of its arguments to `super().__init__`. -/
def demoLevels : List Level :=
  [⟨3, true, fun a k => (a, k)⟩, ⟨2, true, fun a k => (a, k)⟩,
   ⟨1, true, fun a k => (a, k)⟩]

/-- Registry after constructing Parent(=1) twice (instances 10, 11),
Child(=2) once (instance 20) and Grandchild(=3) once (instance 30). -/
def demoRegistry : Registry :=
  trackedNew 3 30 (trackedNew 2 20 (trackedNew 1 11 (trackedNew 1 10 [])))

/-- Registry after constructing only Parent(=1) once (instance 10). -/
def parentOnlyRegistry : Registry := trackedNew 1 10 []

/-- Subclass tree Grandchild. -/
def treeGrandchild : ClsTree := ClsTree.node 3 ClsForest.nil

/-- Subclass tree Child with subclass Grandchild. -/
def treeChild : ClsTree := ClsTree.node 2 (ClsForest.cons treeGrandchild ClsForest.nil)

/-- Subclass tree Parent with subclass Child. -/
def treeParent : ClsTree := ClsTree.node 1 (ClsForest.cons treeChild ClsForest.nil)

/-!
## Dictionary lemmas
-/

theorem dlookup_dset (d : Dict) (k k' : String) (v : PyVal) :
    dlookup k' (dset d k v) = if k' = k then some v else dlookup k' d := by
  induction d with
  | nil =>
      by_cases h : k' = k
      · simp [dset, dlookup, h]
      · simp [dset, dlookup, h, Ne.symm h]
  | cons p rest ih =>
      obtain ⟨k0, v0⟩ := p
      simp only [dset]
      by_cases h0 : k0 = k
      · rw [if_pos h0]
        by_cases h1 : k0 = k'
        · simp [dlookup, h1, h1.symm.trans h0]
        · have hk : ¬ k' = k := fun hh => h1 (h0.trans hh.symm)
          simp [dlookup, h1, hk]
      · rw [if_neg h0]
        by_cases h1 : k0 = k'
        · have hk : ¬ k' = k := fun hh => h0 (h1.trans hh)
          simp [dlookup, h1, hk]
        · simp [dlookup, h1, ih]

theorem dlookup_dpop (d : Dict) (k k' : String) :
    dlookup k' (dpop k d) = if k' = k then none else dlookup k' d := by
  induction d with
  | nil => simp [dpop, dlookup]
  | cons p rest ih =>
      obtain ⟨k0, v0⟩ := p
      simp only [dpop]
      by_cases h0 : k0 = k
      · rw [if_pos h0, ih]
        by_cases h1 : k' = k
        · simp [h1]
        · have hk : ¬ k0 = k' := fun hh => h1 (hh.symm.trans h0)
          simp [dlookup, h1, hk]
      · rw [if_neg h0]
        by_cases h1 : k0 = k'
        · have hk : ¬ k' = k := fun hh => h0 (h1.trans hh)
          simp [dlookup, h1, hk]
        · simp [dlookup, h1, ih]

theorem dpop_of_lookup_none (d : Dict) (k : String) (h : dlookup k d = none) :
    dpop k d = d := by
  induction d with
  | nil => rfl
  | cons p rest ih =>
      obtain ⟨k0, v0⟩ := p
      by_cases h0 : k0 = k
      · subst h0
        simp [dlookup] at h
      · simp [dlookup, h0] at h
        simp [dpop, h0, ih h]


/-!
## Structure lemmas about the recorder
-/

theorem mem_foldl_append {α β : Type} (f : β → List α) (l : List β)
    (acc : List α) (x : α) :
    x ∈ l.foldl (fun a b => a ++ f b) acc ↔ x ∈ acc ∨ ∃ b ∈ l, x ∈ f b := by
  induction l generalizing acc with
  | nil => simp
  | cons b rest ih =>
      simp only [List.foldl_cons, ih, List.mem_append, List.mem_cons]
      constructor
      · rintro (⟨h | h⟩ | ⟨b', hb', hx⟩)
        · exact Or.inl h
        · exact Or.inr ⟨b, Or.inl rfl, h⟩
        · exact Or.inr ⟨b', Or.inr hb', hx⟩
      · rintro (h | ⟨b', hb' | hb', hx⟩)
        · exact Or.inl (Or.inl h)
        · exact Or.inl (Or.inr (hb' ▸ hx))
        · exact Or.inr ⟨b', hb', hx⟩

theorem mem_allParams (chain : List Sig) (p : Param) :
    p ∈ allParams chain ↔ ∃ s ∈ chain, p ∈ s.params := by
  unfold allParams
  rw [mem_foldl_append (fun s => s.params) chain [] p]
  simp

theorem mem_declaredNames (chain : List Sig) (k : String) :
    k ∈ declaredNames chain ↔
      ∃ s ∈ chain, k ∈ s.params.map Param.name := by
  simp only [declaredNames, List.mem_map, mem_allParams]
  constructor
  · rintro ⟨p, ⟨s, hs, hp⟩, rfl⟩
    exact ⟨s, hs, p, hp, rfl⟩
  · rintro ⟨s, hs, p, hp, rfl⟩
    exact ⟨p, ⟨s, hs, hp⟩, rfl⟩

theorem mem_map_of_filter {α β : Type} (f : α → β) (q : α → Bool) (l : List α)
    (b : β) (h : b ∈ (l.filter q).map f) : b ∈ l.map f := by
  rcases List.mem_map.mp h with ⟨a, ha, rfl⟩
  exact List.mem_map_of_mem _ (List.mem_of_mem_filter ha)

theorem foldl_dset_lookup {α : Type} (nm : α → String) (vl : α → PyVal)
    (l : List α) (d : Dict) (k : String)
    (h : dlookup k (l.foldl (fun d' x => dset d' (nm x) (vl x)) d) ≠ none) :
    dlookup k d ≠ none ∨ k ∈ l.map nm := by
  induction l generalizing d with
  | nil => exact Or.inl h
  | cons x rest ih =>
      rw [List.foldl_cons] at h
      rcases ih (dset d (nm x) (vl x)) h with h' | h'
      · rw [dlookup_dset] at h'
        by_cases hk : k = nm x
        · exact Or.inr (by rw [List.map_cons, hk]; exact List.mem_cons_self _ _)
        · rw [if_neg hk] at h'
          exact Or.inl h'
      · exact Or.inr (by rw [List.map_cons]; exact List.mem_cons_of_mem _ h')

theorem bindRequired_lookup (ps : List Param) (d : Dict) (args : List PyVal)
    (k : String) (h : dlookup k (bindRequired d args ps).1 ≠ none) :
    dlookup k d ≠ none ∨ k ∈ ps.map Param.name := by
  induction ps generalizing d args with
  | nil => exact Or.inl h
  | cons p rest ih =>
      have step : ∀ (d1 : Dict) (args1 : List PyVal),
          dlookup k (bindRequired d1 args1 rest).1 ≠ none →
          dlookup k d1 ≠ none ∨ k ∈ (p :: rest).map Param.name := by
        intro d1 args1 h1
        rcases ih d1 args1 h1 with h' | h'
        · exact Or.inl h'
        · exact Or.inr (by rw [List.map_cons]; exact List.mem_cons_of_mem _ h')
      have key : ∀ (v : PyVal),
          dlookup k (dset d p.name v) ≠ none →
          dlookup k d ≠ none ∨ k ∈ (p :: rest).map Param.name := by
        intro v hv
        rw [dlookup_dset] at hv
        by_cases hk : k = p.name
        · exact Or.inr (by rw [List.map_cons, hk]; exact List.mem_cons_self _ _)
        · rw [if_neg hk] at hv
          exact Or.inl hv
      cases args with
      | nil =>
          simp only [bindRequired] at h
          rcases step (dset d p.name p.default) [] h with h' | h'
          · exact key p.default h'
          · exact Or.inr h'
      | cons a rest' =>
          simp only [bindRequired] at h
          rcases step (dset d p.name a) rest' h with h' | h'
          · exact key a h'
          · exact Or.inr h'

theorem leftoverLoop_lookup (plist : List Param) (args : List PyVal)
    (idx : Nat) (d d' : Dict) (a' : List PyVal) (k : String)
    (hL : leftoverLoop plist idx d args = some (d', a'))
    (h : dlookup k d' ≠ none) :
    dlookup k d ≠ none ∨ k ∈ plist.map Param.name := by
  induction args generalizing idx d with
  | nil =>
      simp only [leftoverLoop, Option.some.injEq, Prod.mk.injEq] at hL
      rw [← hL.1] at h
      exact Or.inl h
  | cons a rest ih =>
      simp only [leftoverLoop] at hL
      split at hL
      · exact absurd hL (by simp)
      · rename_i p hg
        by_cases hv : isVariadic p = true
        · rw [if_pos hv] at hL
          have hd : d = d' := by
            have := (Option.some.injEq _ _).mp hL
            exact ((Prod.mk.injEq _ _ _ _).mp this).1
          rw [hd]
          exact Or.inl h
        · rw [if_neg hv] at hL
          rcases ih (idx + 1) (dset d p.name a) hL with h' | h'
          · rw [dlookup_dset] at h'
            by_cases hk : k = p.name
            · subst hk
              exact Or.inr (List.mem_map_of_mem _ (List.get?_mem hg))
            · rw [if_neg hk] at h'
              exact Or.inl h'
          · exact Or.inr h'

theorem processBase_lookup (s : Sig) (data d : Dict) (args a : List PyVal)
    (k : String) (hp : processBase s data args = some (d, a))
    (h : dlookup k d ≠ none) :
    dlookup k data ≠ none ∨ k ∈ s.params.map Param.name := by
  simp only [processBase] at hp
  have h1 := leftoverLoop_lookup s.params _ _ _ _ _ k hp h
  rcases h1 with h1 | h1
  · have h2 := bindRequired_lookup (requiredParams s) _ args k h1
    rcases h2 with h2 | h2
    · have h3 := foldl_dset_lookup Param.name Param.default
        (defaultedParams s) data k h2
      rcases h3 with h3 | h3
      · exact Or.inl h3
      · exact Or.inr (mem_map_of_filter Param.name _ s.params k h3)
    · exact Or.inr (mem_map_of_filter Param.name _ s.params k h2)
  · exact Or.inr h1

theorem walkChain_lookup (chain : List Sig) (data d : Dict)
    (args a : List PyVal) (k : String)
    (hw : walkChain data args chain = some (d, a))
    (h : dlookup k d ≠ none) :
    dlookup k data ≠ none ∨ k ∈ declaredNames chain := by
  induction chain generalizing data args with
  | nil =>
      simp only [walkChain, Option.some.injEq, Prod.mk.injEq] at hw
      rw [← hw.1] at h
      exact Or.inl h
  | cons s rest ih =>
      simp only [walkChain] at hw
      split at hw
      · exact absurd hw (by simp)
      · rename_i da hp
        have hpair : processBase s data args = some (da.1, da.2) := by
          rw [hp]
        have inS : dlookup k da.1 ≠ none →
            dlookup k data ≠ none ∨ k ∈ declaredNames (s :: rest) := by
          intro hx
          rcases processBase_lookup s data da.1 args da.2 k hpair hx with hx' | hx'
          · exact Or.inl hx'
          · exact Or.inr ((mem_declaredNames _ _).mpr
              ⟨s, List.mem_cons_self _ _, hx'⟩)
        by_cases hv : hasVariadic s = true
        · rw [if_pos hv] at hw
          rcases ih da.1 da.2 hw with h' | h'
          · exact inS h'
          · rcases (mem_declaredNames rest k).mp h' with ⟨s', hs', hk⟩
            exact Or.inr ((mem_declaredNames _ _).mpr
              ⟨s', List.mem_cons_of_mem _ hs', hk⟩)
        · rw [if_neg hv] at hw
          have hda : da = (d, a) := (Option.some.injEq _ _).mp hw
          have h1 : dlookup k da.1 ≠ none := by rw [hda]; exact h
          exact inS h1

theorem overlay_lookup (kwargs : Dict) (d : Dict) (k : String)
    (h : dlookup k (overlayKwargs d kwargs) ≠ none) :
    dlookup k d ≠ none ∨ k ∈ kwargs.map Prod.fst :=
  foldl_dset_lookup Prod.fst Prod.snd kwargs d k h

theorem dlookup_cleanup (d : Dict) (k : String) :
    dlookup k (cleanupData d) =
      if bookkeepingNames.contains k then none else dlookup k d := by
  show dlookup k (dpop "kwargs" (dpop "args" (dpop "self" (dpop "cls" d)))) = _
  rw [dlookup_dpop, dlookup_dpop, dlookup_dpop, dlookup_dpop]
  by_cases h1 : k = "cls" <;> by_cases h2 : k = "self" <;>
    by_cases h3 : k = "args" <;> by_cases h4 : k = "kwargs" <;>
    simp [bookkeepingNames, h1, h2, h3, h4]

/-!
## Claims about the construction argument recorder
-/

/-- C10: the fixed key names `self`, `cls`, `args` and `kwargs` are removed
from the recorded metadata unconditionally by name: they are absent from
every recorded metadata, even when an ancestor declares an ordinary
non-variadic parameter with one of those names and the caller passes a value
for it; the removal step touches no other key, so a variadic collector
declared under any other name is not subject to it (its caller-supplied
keyword binding survives). -/
theorem claimC10_fixed_names_removed :
    (∀ (chain : List Sig) (args : List PyVal) (kwargs d : Dict),
        postInitMetadata chain args kwargs = some d →
        dlookup "cls" d = none ∧ dlookup "self" d = none ∧
          dlookup "args" d = none ∧ dlookup "kwargs" d = none) ∧
    (∀ (d : Dict) (k : String), bookkeepingNames.contains k = false →
        dlookup k (cleanupData d) = dlookup k d) ∧
    (∀ a b : PyVal,
        postInitMetadata chainArgsName [a, b] [] = some [("p1", a)]) ∧
    (∀ a b : PyVal,
        postInitMetadata chainOtherCollector [a] [("rest", b)] =
          some [("p1", a), ("rest", b)]) := by
  refine ⟨?_, ?_, ?_, ?_⟩
  · intro chain args kwargs d hd
    simp only [postInitMetadata] at hd
    split at hd
    · exact absurd hd (by simp)
    · rename_i da hw
      have hdd : d = cleanupData (overlayKwargs da.1 kwargs) :=
        ((Option.some.injEq _ _).mp hd).symm
      subst hdd
      refine ⟨?_, ?_, ?_, ?_⟩ <;>
        rw [dlookup_cleanup] <;> simp [bookkeepingNames]
  · intro d k hk
    rw [dlookup_cleanup, hk]
    simp
  · intro a b
    rfl
  · intro a b
    rfl

/-- Witness for C10: the hypotheses of its universally quantified parts hold
at a concrete construction — `Parent("a", "b")` — and at a concrete key. -/
theorem claimC10_fixed_names_removed_witness :
    (dlookup "cls"
        [("p3", PyVal.str "vp3"), ("p1", PyVal.str "a"), ("p2", PyVal.str "b")]
        = none ∧
      dlookup "self"
        [("p3", PyVal.str "vp3"), ("p1", PyVal.str "a"), ("p2", PyVal.str "b")]
        = none ∧
      dlookup "args"
        [("p3", PyVal.str "vp3"), ("p1", PyVal.str "a"), ("p2", PyVal.str "b")]
        = none ∧
      dlookup "kwargs"
        [("p3", PyVal.str "vp3"), ("p1", PyVal.str "a"), ("p2", PyVal.str "b")]
        = none) ∧
    dlookup "p1" (cleanupData [("p1", PyVal.str "a")]) =
      dlookup "p1" [("p1", PyVal.str "a")] :=
  ⟨claimC10_fixed_names_removed.1 chainParent
      [PyVal.str "a", PyVal.str "b"] [] _ (by rfl),
    claimC10_fixed_names_removed.2.1 [("p1", PyVal.str "a")] "p1" (by decide)⟩

/-- C4 counterexample: `Parent(p1, **kwargs)` constructed as
`Parent("A", foo="B")` records the key `foo` in the metadata although no
ancestor's initializer declares a parameter named `foo`, refuting the claim
that every metadata key is a declared parameter name. -/
theorem claimC4_counterexample :
    postInitMetadata chainVarKw [PyVal.str "A"] [("foo", PyVal.str "B")] =
      some [("p1", PyVal.str "A"), ("foo", PyVal.str "B")] ∧
    (declaredNames chainVarKw).contains "foo" = false := by decide

/-- C4 as amended: every key of the recorded metadata is either a parameter
name declared by some ancestor's initializer or a keyword-argument name
supplied by the caller (extra keywords absorbed by a variadic-keyword
collector do appear under their own names), and is never one of the four
bookkeeping names. -/
theorem claimC4_amended :
    ∀ (chain : List Sig) (args : List PyVal) (kwargs d : Dict),
      postInitMetadata chain args kwargs = some d →
      ∀ k : String, dlookup k d ≠ none →
        (k ∈ declaredNames chain ∨ k ∈ kwargs.map Prod.fst) ∧
          bookkeepingNames.contains k = false := by
  intro chain args kwargs d hd k hk
  simp only [postInitMetadata] at hd
  split at hd
  · exact absurd hd (by simp)
  · rename_i da hw
    have hdd : d = cleanupData (overlayKwargs da.1 kwargs) :=
      ((Option.some.injEq _ _).mp hd).symm
    subst hdd
    rw [dlookup_cleanup] at hk
    by_cases hb : bookkeepingNames.contains k = true
    · rw [if_pos hb] at hk
      exact absurd rfl hk
    · rw [if_neg hb] at hk
      have hb' : bookkeepingNames.contains k = false := by
        simpa using hb
      rcases overlay_lookup kwargs da.1 k hk with h1 | h1
      · have hw2 : walkChain [] args chain = some (da.1, da.2) := by rw [hw]
        rcases walkChain_lookup chain [] da.1 args da.2 k hw2 h1 with h2 | h2
        · exact absurd rfl h2
        · exact ⟨Or.inl h2, hb'⟩
      · exact ⟨Or.inr h1, hb'⟩

/-- Witness for C4's amended claim at the concrete construction
`Parent("A", foo="B")` and key `foo`. -/
theorem claimC4_amended_witness :
    ("foo" ∈ declaredNames chainVarKw ∨
      "foo" ∈ ([("foo", PyVal.str "B")] : Dict).map Prod.fst) ∧
    bookkeepingNames.contains "foo" = false :=
  claimC4_amended chainVarKw [PyVal.str "A"] [("foo", PyVal.str "B")]
    [("p1", PyVal.str "A"), ("foo", PyVal.str "B")] (by rfl) "foo" (by decide)

/-- C2 counterexample: in the hierarchy `Child(c1, c2="vc2", *args,
**kwargs)` over `Parent(p1, c2="pc2")`, the positional construction
`Child("A", "B", "P1")` binds `c2 = "B"` at the most-derived level, yet the
recorded metadata holds the deeper default `"pc2"`: `data.update(**kw)`
overwrites the value already present, refuting the claim that seeding a
deeper ancestor's defaults never overwrites a more-derived binding. -/
theorem claimC2_counterexample :
    postInitMetadata chainRedecl
        [PyVal.str "A", PyVal.str "B", PyVal.str "P1"] [] =
      some [("c2", PyVal.str "pc2"), ("c1", PyVal.str "A"),
            ("p1", PyVal.str "P1")] ∧
    ((postInitMetadata chainRedecl
        [PyVal.str "A", PyVal.str "B", PyVal.str "P1"] []).bind
          (fun d => dlookup "c2" d) == some (PyVal.str "B")) = false := by
  decide

/-- C2 as amended: seeding a deeper ancestor's defaulted parameters
overwrites a value already present in the result from a more-derived
ancestor (`dict.update` replaces existing keys), so a name redeclared with a
default at several levels ends up with the deepest visited level's binding;
only the final keyword overlay restores caller priority, as the keyword
construction of the same hierarchy shows. -/
theorem claimC2_amended :
    postInitMetadata chainRedecl
        [PyVal.str "A", PyVal.str "B", PyVal.str "P1"] [] =
      some [("c2", PyVal.str "pc2"), ("c1", PyVal.str "A"),
            ("p1", PyVal.str "P1")] ∧
    postInitMetadata chainRedecl [PyVal.str "A"]
        [("c2", PyVal.str "B"), ("p1", PyVal.str "P1")] =
      some [("c2", PyVal.str "B"), ("c1", PyVal.str "A"),
            ("p1", PyVal.str "P1")] := by
  exact ⟨rfl, rfl⟩

/-- C3 counterexample: in the redeclaring hierarchy, the all-positional
construction `Child("A", "B", "P1")` and the all-keyword construction
`Child(c1="A", c2="B", p1="P1")` specify the same logical values at every
level, yet record different metadata for `c2` (`"pc2"` versus `"B"`),
refuting the claim that positional and keyword presentations always yield
identical mappings. -/
theorem claimC3_counterexample :
    (postInitMetadata chainRedecl
        [PyVal.str "A", PyVal.str "B", PyVal.str "P1"] []).bind
      (fun d => dlookup "c2" d) = some (PyVal.str "pc2") ∧
    (postInitMetadata chainRedecl []
        [("c1", PyVal.str "A"), ("c2", PyVal.str "B"),
         ("p1", PyVal.str "P1")]).bind
      (fun d => dlookup "c2" d) = some (PyVal.str "B") ∧
    ((postInitMetadata chainRedecl
        [PyVal.str "A", PyVal.str "B", PyVal.str "P1"] []).bind
        (fun d => dlookup "c2" d) ==
      (postInitMetadata chainRedecl []
        [("c1", PyVal.str "A"), ("c2", PyVal.str "B"),
         ("p1", PyVal.str "P1")]).bind
        (fun d => dlookup "c2" d)) = false := by
  decide

/-- C3 as amended: when no parameter name is declared at more than one
ancestor level — as in the repository's three-level test hierarchy — the
all-positional, all-keyword and mixed presentations of the same logical
values record identical metadata, for every choice of argument values; with
a redeclared name the presentations can differ. -/
theorem claimC3_amended :
    ∀ g1 g2 c1 c2 c3 q1 q2 q3 : PyVal,
      postInitMetadata chainGrandchild [g1, g2, c1, c2, c3, q1, q2, q3] [] =
        postInitMetadata chainGrandchild []
          [("gc1", g1), ("gc2", g2), ("c1", c1), ("c2", c2), ("c3", c3),
           ("p1", q1), ("p2", q2), ("p3", q3)] ∧
      postInitMetadata chainGrandchild [g1, g2, c1, c2]
          [("c3", c3), ("p1", q1), ("p2", q2), ("p3", q3)] =
        postInitMetadata chainGrandchild []
          [("gc1", g1), ("gc2", g2), ("c1", c1), ("c2", c2), ("c3", c3),
           ("p1", q1), ("p2", q2), ("p3", q3)] := by
  intro g1 g2 c1 c2 c3 q1 q2 q3
  exact ⟨rfl, rfl⟩

/-- C5 counterexample: `Parent(p1, p2, p3="vp3")` called with four positional
arguments — more than the three declared non-variadic slots of a chain with
no variadic-positional parameter among its user-declared ancestors — does
not complete: Python's binding of the initializer call raises `TypeError`
before the hook can run; and the recorder itself, applied to that argument
stream, faults (`IndexError` past the end of the parameter list) instead of
silently dropping the excess. -/
theorem claimC5_counterexample :
    bindCall sigParent
        [PyVal.str "a", PyVal.str "b", PyVal.str "c", PyVal.str "d"] [] =
      Except.error "TypeError: too many positional arguments" ∧
    postInitMetadata chainParent
        [PyVal.str "a", PyVal.str "b", PyVal.str "c", PyVal.str "d"] [] =
      none := by
  exact ⟨rfl, rfl⟩

/-- C5 as amended: supplying more positional arguments than the total number
of declared non-variadic slots of a chain none of whose signatures declares
a variadic-positional parameter makes the construction fail — the
most-derived initializer call itself raises the too-many-arguments
`TypeError`, so the recorder never runs and the excess values never reach
any metadata. -/
theorem claimC5_amended :
    ∀ (s : Sig) (rest : List Sig) (args : List PyVal) (kwargs : Dict),
      ((s :: rest).all
        (fun sg => !(sg.params.any (fun p => p.kind == PKind.varPos)))) = true →
      args.length > totalNonVariadicSlots (s :: rest) →
      bindCall s args kwargs =
        Except.error "TypeError: too many positional arguments" := by
  intro s rest args kwargs hall hlen
  have h1 : (s.params.any (fun p => p.kind == PKind.varPos)) = false := by
    have hs := List.all_eq_true.mp hall s (List.mem_cons_self _ _)
    simpa using hs
  have h2 : args.length > (nonVariadicParams s).length := by
    have hle : (nonVariadicParams s).length ≤ totalNonVariadicSlots (s :: rest) := by
      simp only [totalNonVariadicSlots, List.map_cons, List.sum_cons]
      exact Nat.le_add_right _ _
    omega
  have hcond : tooManyPositional s args = true := by
    unfold tooManyPositional
    rw [h1]
    simp [h2]
  unfold bindCall
  rw [if_pos hcond]

/-- Witness for C5's amended claim: the one-class chain `[Parent]` has no
variadic-positional parameter and three non-variadic slots, and a four
argument call fails to bind. -/
theorem claimC5_amended_witness :
    (([sigParent].all
        (fun sg => !(sg.params.any (fun p => p.kind == PKind.varPos)))) = true ∧
      4 > totalNonVariadicSlots [sigParent]) ∧
    bindCall sigParent
        [PyVal.str "a", PyVal.str "b", PyVal.str "c", PyVal.str "d"] [] =
      Except.error "TypeError: too many positional arguments" :=
  ⟨by decide,
    claimC5_amended sigParent []
      [PyVal.str "a", PyVal.str "b", PyVal.str "c", PyVal.str "d"] []
      (by decide) (by decide)⟩

/-- C9: `get_mro_parameters` returns the union, over the class's full MRO,
of all declared non-variadic parameters: membership in the result is
equivalent to being a non-variadic parameter declared by some ancestor's
signature; concretely, on `Parent` it returns exactly the three names
`p1, p2, p3`, and on the three-level `Grandchild` chain the union of all
eight non-variadic names. -/
theorem claimC9_mro_parameters :
    (∀ (chain : List Sig) (p : Param),
        p ∈ get_mro_parameters chain ↔
          (∃ s ∈ chain, p ∈ s.params) ∧ isVariadic p = false) ∧
    (get_mro_parameters chainParent).map Param.name = ["p1", "p2", "p3"] ∧
    (get_mro_parameters chainParent).length = 3 ∧
    (get_mro_parameters chainGrandchild).map Param.name =
      ["gc1", "gc2", "c1", "c2", "c3", "p1", "p2", "p3"] ∧
    (get_mro_parameters chainGrandchild).length = 8 := by
  refine ⟨?_, by decide, by decide, by decide, by decide⟩
  intro chain p
  simp [get_mro_parameters, List.mem_dedup, List.mem_filter, mem_allParams]

/-!
## Claims about the metadata view, the registry and the hook protocol
-/

/-- C8 counterexample: the metadata view returned after construction is the
raw `_metadata` dict, so item assignment on it succeeds and changes the
stored metadata — no immutable-metadata error is raised — refuting the claim
that any attempt to set or change a value on the view fails. -/
theorem claimC8_counterexample :
    setMetadataItem [("p1", PyVal.str "argp1")] "p1" (PyVal.str "mutated") =
      [("p1", PyVal.str "mutated")] ∧
    (metadataView
        (setMetadataItem [("p1", PyVal.str "argp1")] "p1" (PyVal.str "mutated"))
      == metadataView [("p1", PyVal.str "argp1")]) = false := by
  decide

/-- C8 as amended: rebinding the `metadata` attribute itself fails (the
property declares no setter, so the assignment raises `AttributeError`), but
the view the property returns is the underlying mutable dict: item
assignment on it succeeds and is visible in every later read of the view. -/
theorem claimC8_amended :
    (∀ m v : Dict, setMetadataAttr m v =
        Except.error "AttributeError: metadata property has no setter") ∧
    (∀ (m : Dict) (k : String) (v : PyVal),
        dlookup k (metadataView (setMetadataItem m k v)) = some v) := by
  refine ⟨fun m v => rfl, fun m k v => ?_⟩
  show dlookup k (dset m k v) = some v
  rw [dlookup_dset, if_pos rfl]

theorem lookupReg_setReg (c : Nat) (l : List Nat) (st : Registry) :
    lookupReg c (setReg c l st) = some l := by
  induction st with
  | nil => simp [setReg, lookupReg]
  | cons p rest ih =>
      obtain ⟨c0, l0⟩ := p
      by_cases h : c0 = c
      · simp [setReg, lookupReg, h]
      · simp [setReg, lookupReg, h, ih]

/-- C6: querying `get_instances` on a class whose own `__dict__` has no
`instances` registry — no instance of exactly that class was ever
constructed — fails with the missing-registry `AttributeError`; after a
construction of the class the query succeeds and returns exactly the live
instances satisfying the predicate. -/
theorem claimC6_get_instances :
    (∀ (st : Registry) (c : Nat) (sel : Nat → Bool),
        lookupReg c st = none →
        get_instances c sel st =
          Except.error "AttributeError: class has no attribute instances") ∧
    (∀ (st : Registry) (c i : Nat) (sel : Nat → Bool),
        get_instances c sel (trackedNew c i st) =
          Except.ok ((liveInstances c (trackedNew c i st)).filter sel) ∧
        ∀ j : Nat,
          j ∈ (liveInstances c (trackedNew c i st)).filter sel ↔
            j ∈ liveInstances c (trackedNew c i st) ∧ sel j = true) := by
  constructor
  · intro st c sel h
    unfold get_instances
    rw [h]
  · intro st c i sel
    have hreg : lookupReg c (trackedNew c i st) =
        some (liveInstances c st ++ [i]) := by
      unfold trackedNew
      cases h : lookupReg c st with
      | none => rw [lookupReg_setReg]; simp [liveInstances, h]
      | some l => rw [lookupReg_setReg]; simp [liveInstances, h]
    constructor
    · unfold get_instances
      rw [hreg]
      simp [liveInstances, hreg]
    · intro j
      exact List.mem_filter

/-- Witness for C6 at concrete states: the empty registry has no entry for
class 0, so the query errors; constructing instance 2 of class 0 on top of a
state already holding instance 1 makes the query succeed with the matching
instances. -/
theorem claimC6_get_instances_witness :
    get_instances 0 (fun j => j % 2 == 0) ([] : Registry) =
      Except.error "AttributeError: class has no attribute instances" ∧
    get_instances 0 (fun j => j % 2 == 0) (trackedNew 0 2 (trackedNew 0 1 [])) =
      Except.ok ((liveInstances 0 (trackedNew 0 2 (trackedNew 0 1 []))).filter
        (fun j => j % 2 == 0)) :=
  ⟨(claimC6_get_instances.1 ([] : Registry) 0 (fun j => j % 2 == 0) (by decide)),
    (claimC6_get_instances.2 (trackedNew 0 1 []) 0 2 (fun j => j % 2 == 0)).1⟩

mutual
theorem instTreeGood (st : Registry) (exclude : List Nat) :
    ∀ (t : ClsTree) (inh : Option (List Nat)),
      (∀ c ∈ reachableCls exclude t, lookupReg c st ≠ none) →
      ∃ l, inst_and_subcls_inst st exclude inh t = Except.ok l ∧
        ∀ i, (i ∈ l ↔ ∃ c ∈ reachableCls exclude t, i ∈ liveInstances c st)
  | ClsTree.node c children, inh, hyp => by
      have hrc : reachableCls exclude (ClsTree.node c children) =
          c :: reachableClsForest exclude children := rfl
      have hroot : lookupReg c st ≠ none := by
        apply hyp
        rw [hrc]
        exact List.mem_cons_self _ _
      cases hc : lookupReg c st with
      | none => exact absurd hc hroot
      | some own =>
          have hvis : visibleReg st inh c = some own := by
            unfold visibleReg
            rw [hc]
          have hyp' : ∀ c' ∈ reachableClsForest exclude children,
              lookupReg c' st ≠ none := by
            intro c' h'
            apply hyp
            rw [hrc]
            exact List.mem_cons_of_mem _ h'
          obtain ⟨lf, hok, hiff⟩ :=
            instForestGood st exclude children (some own) hyp'
          refine ⟨own ++ lf, ?_, ?_⟩
          · simp only [inst_and_subcls_inst, hvis, hok]
          · intro i
            rw [List.mem_append, hiff i, hrc]
            have hlive : liveInstances c st = own := by
              simp [liveInstances, hc]
            constructor
            · rintro (h | ⟨c', hc', hi⟩)
              · exact ⟨c, List.mem_cons_self _ _, by rw [hlive]; exact h⟩
              · exact ⟨c', List.mem_cons_of_mem _ hc', hi⟩
            · rintro ⟨c', hc', hi⟩
              rcases List.mem_cons.mp hc' with rfl | hmem
              · rw [hlive] at hi
                exact Or.inl hi
              · exact Or.inr ⟨c', hmem, hi⟩

theorem instForestGood (st : Registry) (exclude : List Nat) :
    ∀ (ts : ClsForest) (inh : Option (List Nat)),
      (∀ c ∈ reachableClsForest exclude ts, lookupReg c st ≠ none) →
      ∃ l, instForest st exclude inh ts = Except.ok l ∧
        ∀ i, (i ∈ l ↔ ∃ c ∈ reachableClsForest exclude ts, i ∈ liveInstances c st)
  | ClsForest.nil, inh, _ => by
      refine ⟨[], rfl, ?_⟩
      intro i
      simp [reachableClsForest]
  | ClsForest.cons t ts, inh, hyp => by
      have hrf : reachableClsForest exclude (ClsForest.cons t ts) =
          (if exclude.contains t.root then [] else reachableCls exclude t) ++
            reachableClsForest exclude ts := rfl
      by_cases hex : exclude.contains t.root = true
      · have hyp' : ∀ c ∈ reachableClsForest exclude ts,
            lookupReg c st ≠ none := by
          intro c' h'
          apply hyp
          rw [hrf, if_pos hex]
          simpa using h'
        obtain ⟨l, hok, hiff⟩ := instForestGood st exclude ts inh hyp'
        refine ⟨l, ?_, ?_⟩
        · simp only [instForest, hex, if_true]
          exact hok
        · intro i
          rw [hiff i, hrf, if_pos hex]
          simp
      · have hypT : ∀ c ∈ reachableCls exclude t, lookupReg c st ≠ none := by
          intro c' h'
          apply hyp
          rw [hrf, if_neg hex]
          exact List.mem_append.mpr (Or.inl h')
        have hypS : ∀ c ∈ reachableClsForest exclude ts,
            lookupReg c st ≠ none := by
          intro c' h'
          apply hyp
          rw [hrf, if_neg hex]
          exact List.mem_append.mpr (Or.inr h')
        obtain ⟨lt, hokt, hifft⟩ := instTreeGood st exclude t inh hypT
        obtain ⟨ls, hoks, hiffs⟩ := instForestGood st exclude ts inh hypS
        refine ⟨lt ++ ls, ?_, ?_⟩
        · have hexF : exclude.contains t.root = false := by simpa using hex
          simp only [instForest, hexF, Bool.false_eq_true, if_false, hokt, hoks]
        · intro i
          rw [List.mem_append, hifft i, hiffs i, hrf, if_neg hex]
          constructor
          · rintro (⟨c', hc', hi⟩ | ⟨c', hc', hi⟩)
            · exact ⟨c', List.mem_append.mpr (Or.inl hc'), hi⟩
            · exact ⟨c', List.mem_append.mpr (Or.inr hc'), hi⟩
          · rintro ⟨c', hc', hi⟩
            rcases List.mem_append.mp hc' with hm | hm
            · exact Or.inl ⟨c', hm, hi⟩
            · exact Or.inr ⟨c', hm, hi⟩
end

/-- C7 counterexample: with only `Parent` (class 1) ever instantiated
(instance 10), calling `inst_and_subcls_inst` on the never-instantiated
subclass `Child` (class 2) returns `Parent`'s instance — the `cls.instances`
attribute lookup falls back to the ancestor's registry — although the union
of `Child`'s own and its descendants' live instances is empty, refuting the
claim that the result is exactly that union for every class. -/
theorem claimC7_counterexample :
    inst_and_subcls_inst parentOnlyRegistry [] (lookupReg 1 parentOnlyRegistry)
        (ClsTree.node 2 ClsForest.nil) = Except.ok [10] ∧
    specUnionLive parentOnlyRegistry [] (ClsTree.node 2 ClsForest.nil) = [] ∧
    (specUnionLive parentOnlyRegistry [] (ClsTree.node 2 ClsForest.nil)).contains 10
      = false := by
  exact ⟨rfl, rfl, rfl⟩

/-- C7 as amended: when the root and every non-excluded descendant each own
a registry (each was instantiated at least once), `inst_and_subcls_inst`
succeeds and returns exactly the union of the root's own live instances and
those of every descendant class that is neither excluded nor below an
excluded class. -/
theorem claimC7_amended :
    ∀ (st : Registry) (exclude : List Nat) (inh : Option (List Nat))
      (t : ClsTree),
      (∀ c ∈ reachableCls exclude t, lookupReg c st ≠ none) →
      ∃ l, inst_and_subcls_inst st exclude inh t = Except.ok l ∧
        ∀ i, (i ∈ l ↔ ∃ c ∈ reachableCls exclude t, i ∈ liveInstances c st) :=
  fun st exclude inh t hyp => instTreeGood st exclude t inh hyp

/-- Witness for C7's amended claim: the test scenario — Parent, Child and
Grandchild all instantiated, Grandchild excluded. -/
theorem claimC7_amended_witness :
    (∀ c ∈ reachableCls [3] treeParent, lookupReg c demoRegistry ≠ none) ∧
    ∃ l, inst_and_subcls_inst demoRegistry [3] none treeParent = Except.ok l ∧
      ∀ i, (i ∈ l ↔ ∃ c ∈ reachableCls [3] treeParent,
        i ∈ liveInstances c demoRegistry) :=
  ⟨by decide, claimC7_amended demoRegistry [3] none treeParent (by decide)⟩

theorem hookEvents_append (a b : List Event) :
    hookEvents (a ++ b) = hookEvents a ++ hookEvents b :=
  List.filter_append _ _

theorem no_hook_of_alien (t : Nat) :
    ∀ (ls : List Level) (args : List PyVal) (kwargs : Dict),
      (∀ l ∈ ls, l.cls ≠ t) →
      hookEvents (runInitChain t ls args kwargs) = []
  | [], _, _, _ => rfl
  | l :: rest, args, kwargs, hyp => by
      have hne : l.cls ≠ t := hyp l (List.mem_cons_self _ _)
      have hrest : ∀ l' ∈ rest, l'.cls ≠ t :=
        fun l' h => hyp l' (List.mem_cons_of_mem _ h)
      by_cases hw : l.wrapped = true
      · cases hini : dlookup "init" kwargs with
        | some v =>
            simp only [runInitChain, hw, if_true, hini]
            simp [hookEvents, hne]
        | none =>
            simp only [runInitChain, hw, if_true, hini]
            rw [hookEvents_append, hookEvents_append,
              no_hook_of_alien t rest _ _ hrest]
            simp [hookEvents, hne]
      · have hw' : l.wrapped = false := by simpa using hw
        simp only [runInitChain, hw', Bool.false_eq_true, if_false]
        rw [hookEvents_append, no_hook_of_alien t rest _ _ hrest]
        simp [hookEvents]

/-- C1 counterexample: constructing with a keyword argument named `init`
refutes the pass-through part of the claim.  The wrapper `new_init` declares
the keyword-only parameter `init=cls.__init__`, so the caller's `init`
keyword binds that parameter instead of reaching `**kwargs`: the supplied
callable replaces the original initializer chain, and the hook — though
still fired exactly once at the exact runtime type — receives the keyword
arguments with `init` stripped, not the original ones unchanged. -/
theorem claimC1_counterexample :
    runInitChain 3 demoLevels [PyVal.str "x"] [("init", PyVal.str "f")] =
      [Event.ovrCall 3, Event.hook 3 [PyVal.str "x"] []] ∧
    (hookEvents
        (runInitChain 3 demoLevels [PyVal.str "x"] [("init", PyVal.str "f")]) ==
      [Event.hook 3 [PyVal.str "x"] [("init", PyVal.str "f")]]) = false := by
  exact ⟨rfl, rfl⟩

/-- C1 as amended: for every construction whose keyword arguments do not
include the name `init`, the post-construction hook is invoked exactly once:
only the wrapper of the most-derived class — the one equal to the instance's
exact runtime type — fires it, as the very last step after the whole
initializer chain, passing the original positional and keyword arguments
through unchanged; the wrappers of all strictly less-derived levels never
fire it.  (A keyword named `init` is intercepted by the wrapper, replacing
the initializer and being stripped from what the hook receives.) -/
theorem claimC1_amended :
    ∀ (t : Nat) (l0 : Level) (rest : List Level) (args : List PyVal)
      (kwargs : Dict),
      l0.cls = t → l0.wrapped = true → (∀ l ∈ rest, l.cls ≠ t) →
      dlookup "init" kwargs = none →
      hookEvents (runInitChain t (l0 :: rest) args kwargs) =
        [Event.hook t args kwargs] ∧
      ∃ pre : List Event,
        runInitChain t (l0 :: rest) args kwargs =
          pre ++ [Event.hook t args kwargs] := by
  intro t l0 rest args kwargs hcls hw hrest hini
  have hkw : dpop "init" kwargs = kwargs := dpop_of_lookup_none kwargs "init" hini
  have hrun : runInitChain t (l0 :: rest) args kwargs =
      (runInitChain t rest (l0.fwd args kwargs).1 (l0.fwd args kwargs).2 ++
        [Event.initBody l0.cls]) ++ [Event.hook t args kwargs] := by
    simp only [runInitChain, hw, if_true, hini, hkw, hcls]
  constructor
  · rw [hrun, hookEvents_append, hookEvents_append,
      no_hook_of_alien t rest _ _ hrest]
    simp [hookEvents]
  · exact ⟨_, hrun⟩

/-- Witness for C1's amended claim: a three-level fully forwarding hierarchy
constructed with one positional and one ordinary keyword argument. -/
theorem claimC1_amended_witness :
    hookEvents (runInitChain 3 demoLevels [PyVal.str "x"] [("kw", PyVal.str "w")]) =
      [Event.hook 3 [PyVal.str "x"] [("kw", PyVal.str "w")]] ∧
    ∃ pre : List Event,
      runInitChain 3 demoLevels [PyVal.str "x"] [("kw", PyVal.str "w")] =
        pre ++ [Event.hook 3 [PyVal.str "x"] [("kw", PyVal.str "w")]] :=
  claimC1_amended 3 ⟨3, true, fun a k => (a, k)⟩
    [⟨2, true, fun a k => (a, k)⟩, ⟨1, true, fun a k => (a, k)⟩]
    [PyVal.str "x"] [("kw", PyVal.str "w")] rfl rfl
    (by
      intro l hl
      rcases List.mem_cons.mp hl with h | h
      · rw [h]; decide
      · rcases List.mem_cons.mp h with h2 | h2
        · rw [h2]; decide
        · cases h2)
    rfl
